import Mathlib

/-!
Verification of the datadog-pgo acquisition-and-merge pipeline.

The Go sources embedded here:
- main.go: run, SearchDownloadMerge, searchDownloadMerge,
  searchDownloadMergePGOEndpoint, MergedProfile (the accumulator),
  ProfilesDownload.MergedProfile, MergedProfile.Write.
- the API client file: ClientFromEnv, SearchProfiles response handling,
  maxConcurrency and limitConcurrency (counting semaphore).

External collaborators (the pprof codec, the HTTP transport, the zip reader)
are modelled at the interface level the spec gives them; network and archive
outcomes are passed in as explicit values.
-/

/-! ## Profile data model (the pprof codec's sample sets) -/

/-- A sample value type, e.g. ("cpu", "nanoseconds"). Mirrors pprof's
`ValueType` (type, unit). -/
structure ValueType where
  type : String
  unit : String
deriving DecidableEq

/-- A stack sample. Mirrors pprof's `Sample`: a stack of location ids, a
vector of numeric values, per-sample string labels (`Label`) and per-sample
numeric labels (`NumLabel`). Go maps are modelled as association lists. -/
structure Sample where
  location : List Nat
  value : List Int
  label : List (String × List String)
  numLabel : List (String × List Int)
deriving DecidableEq

/-- An in-memory decoded profile. Mirrors the pprof `Profile` fields the
pipeline touches: sample types, samples, capture time and duration. -/
structure Profile where
  sampleType : List ValueType
  sample : List Sample
  timeNanos : Int
  durationNanos : Int
deriving DecidableEq

/-- The identity of a sample for merge grouping: stack, string labels and
numeric labels. Samples with equal keys are combined by summing values. -/
def sampleKey (s : Sample) : List Nat × List (String × List String) × List (String × List Int) :=
  (s.location, s.label, s.numLabel)

/-- Pointwise sum of two sample value vectors. -/
def addValues (a b : List Int) : List Int :=
  List.zipWith (· + ·) a b

/-- Fold one sample into an accumulated sample list: if a sample with the
same key is present its values are summed, otherwise the sample is appended. -/
def insertSample (acc : List Sample) (s : Sample) : List Sample :=
  match acc with
  | [] => [s]
  | t :: rest =>
    if sampleKey t = sampleKey s then
      { t with value := addValues t.value s.value } :: rest
    else
      t :: insertSample rest s

/-- Modelled from the spec: the external ProfileCodec's merge primitive
(pprof `profile.Merge` on two profiles), which is not part of this
repository. Per the spec it computes the sample-wise union (per-stack values
summed, stack set the union) and fails if the two profiles have structurally
incompatible sample-value schemas; like the Go library, on failure no merged
profile is produced. -/
def profileMerge (a b : Profile) : Except String Profile :=
  if a.sampleType = b.sampleType then
    .ok { a with
          sample := b.sample.foldl insertSample a.sample,
          durationNanos := a.durationNanos + b.durationNanos }
  else
    .error "incompatible sample types"

/-! ## The Accumulator: MergedProfile (main.go:292-350) -/

/-- The accumulator state (main.go:292-297): the current merged profile
(nil before the first merge, hence `Option`) and the ordered contribution
list of source ids. The mutex only serializes concurrent calls; each call's
effect on the state is the sequential function below. -/
structure MergedProfile where
  profile : Option Profile
  profileIDs : List String
deriving DecidableEq

/-- Label stripping from the start of Merge (main.go:302-305): Go sets
`s.Label = nil` on every sample of the incoming profile, in place. Only the
string labels are cleared; `NumLabel` is untouched. -/
def stripLabels (prof : Profile) : Profile :=
  { prof with sample := prof.sample.map fun s => { s with label := [] } }

/-- One call of `(*MergedProfile).Merge` (main.go:301-323): strip string
labels from `prof`; append `id` to the contribution list (the Go code
appends before the nil check); if no profile is held yet, adopt the
(stripped-in-place) incoming profile; otherwise assign the codec merge's
result and error to the state — on a codec error the Go multi-assignment
`p.profile, err = profile.Merge(...)` stores the nil profile the codec
returned, clearing the accumulated state. Returns the new state and the
returned error. -/
def MergedProfile.Merge (p : MergedProfile) (id : String) (prof : Profile) :
    MergedProfile × Option String :=
  match p.profile with
  | none =>
      ({ profile := some (stripLabels prof), profileIDs := p.profileIDs ++ [id] }, none)
  | some cur =>
      match profileMerge cur (stripLabels prof) with
      | .ok m =>
          ({ profile := some m, profileIDs := p.profileIDs ++ [id] }, none)
      | .error e =>
          ({ profile := none, profileIDs := p.profileIDs ++ [id] }, some e)

/-- A sequence of Merge calls, stopping at the first reported error (as the
pipeline does: any merge error aborts the run). Returns the final state and
the first error, if any. -/
def mergeAll (p : MergedProfile) : List (String × Profile) → MergedProfile × Option String
  | [] => (p, none)
  | (id, prof) :: rest =>
    match MergedProfile.Merge p id prof with
    | (p2, none) => mergeAll p2 rest
    | (p2, some e) => (p2, some e)

/-- Whether `(*MergedProfile).Write` (main.go:327-339) has defined behavior
on this state: Write serializes `p.profile`, and with a nil profile the Go
call `p.profile.Write(cw)` dereferences a nil pointer. The state is valid
serializer input exactly when a profile is held. -/
def MergedProfile.writeOk (p : MergedProfile) : Bool :=
  p.profile.isSome

/-- All samples of the profile are free of per-sample string labels. -/
def Profile.stringLabelFree (p : Profile) : Bool :=
  p.sample.all fun s => decide (s.label = [])

/-- A sample carrying both a string label and a numeric label, used in
concrete instantiations below. -/
def labeledSample : Sample :=
  { location := [1], value := [10], label := [("thread", ["main"])],
    numLabel := [("span", [42])] }

/-- A CPU profile whose single sample carries labels. -/
def labeledCPUProfile : Profile :=
  { sampleType := [{ type := "cpu", unit := "nanoseconds" }],
    sample := [labeledSample], timeNanos := 0, durationNanos := 7 }

example : (stripLabels labeledCPUProfile).stringLabelFree = true := by decide

/-! ## The pgo-endpoint pipeline (main.go:185-196, 284-290, 384-427) -/

/-- The entries of the downloaded archive, as seen by
`(*ProfilesDownload).MergedProfile` (main.go:384-427): for each zip entry its
name and the outcome of opening and parsing it (`f.Open` / `profile.Parse`
failures collapse to an error value). The archive itself may fail to open
(`zip.NewReader`), hence the outer `Except`. -/
def PGOArchive : Type :=
  Except String (List (String × Except String Profile))

/-- The entry loop of `(*ProfilesDownload).MergedProfile` (main.go:391-424):
for each entry, a parse failure aborts with that error; otherwise the parsed
profile is merged into the accumulator under the entry's name, and a merge
error aborts with that error. Logging is ignored. -/
def mergedProfileLoop (p : MergedProfile) :
    List (String × Except String Profile) → Except String MergedProfile
  | [] => .ok p
  | (fname, parseRes) :: rest =>
    match parseRes with
    | .error e => .error e
    | .ok prof =>
      match MergedProfile.Merge p fname prof with
      | (p2, none) => mergedProfileLoop p2 rest
      | (_, some e) => .error e

/-- `(*ProfilesDownload).MergedProfile` (main.go:384-427): open the archive,
then fold every entry into a fresh accumulator. Note there is no emptiness
check: an archive with zero entries yields a successful, empty accumulator. -/
def ProfilesDownload.mergedProfile (archive : PGOArchive) : Except String MergedProfile :=
  match archive with
  | .error e => .error e
  | .ok entries => mergedProfileLoop { profile := none, profileIDs := [] } entries

/-- `searchDownloadMergePGOEndpoint` (main.go:284-290), as a function of the
outcome of `client.SearchAndDownloadProfiles` (a network call): on a search
error the Go code executes `return nil, nil`, discarding the error;
otherwise the archive is merged and that result is returned. The Go pair
(*MergedProfile, error) is modelled as Option x Option so that the
(nil, nil) return is expressible. -/
def searchDownloadMergePGOEndpoint (searchRes : Except String PGOArchive) :
    Option MergedProfile × Option String :=
  match searchRes with
  | .error _ => (none, none)
  | .ok archive =>
    match ProfilesDownload.mergedProfile archive with
    | .ok mp => (some mp, none)
    | .error e => (none, some e)

/-! ## Dispatch: SearchDownloadMerge (main.go:185-196) -/

/-- The compile-time toggle (main.go:188). -/
def usePGOEndpoint : Bool := true

/-- The two pipeline implementations present in main.go. -/
inductive PipelineImpl where
  | pgoEndpoint
  | poolPipeline
deriving DecidableEq

/-- `SearchDownloadMerge` (main.go:191-196): if the flag is set it dispatches
to `searchDownloadMergePGOEndpoint`; otherwise it calls ITSELF (the
capitalized `SearchDownloadMerge`, not the lowercase pool pipeline
`searchDownloadMerge`), recursing without any base case. The fuel argument
counts remaining recursive calls; `none` means the call never returns. -/
def searchDownloadMergeDispatch (flag : Bool) : Nat → Option PipelineImpl
  | 0 => none
  | fuel + 1 => if flag then some .pgoEndpoint else searchDownloadMergeDispatch flag fuel

/-! ## The pool pipeline's search step and truncation
(main.go:198-279, and the older revision's SearchDownloadMerge) -/

/-- A search result row as the pipeline sees it. Mirrors `SearchProfile` in
the client file; the float64 metric fields, used only for logging, are
modelled as integers. -/
structure SearchProfile where
  service : String
  cpuCores : Int
  profileID : String
  eventID : String
  timestamp : Int
  duration : Int
deriving DecidableEq

/-- One decoded item of the `/api/unstable/profiles/list` response body
(the anonymous response struct in `(*Client).SearchProfiles`). -/
structure SearchResponseItem where
  id : String
  attrID : String
  service : String
  durationNanos : Int
  timestamp : Int
  coreCPUCores : Int
deriving DecidableEq

/-- The field mapping from a response item to a SearchProfile, from the loop
at the end of `(*Client).SearchProfiles`. -/
def toSearchProfile (item : SearchResponseItem) : SearchProfile :=
  { eventID := item.id, profileID := item.attrID, service := item.service,
    cpuCores := item.coreCPUCores, timestamp := item.timestamp,
    duration := item.durationNanos }

/-- Prepend a context to an error, as Go's `wrapErr` does via
`fmt.Errorf("%s: %w", ...)`. -/
def wrapExcept {α : Type} (context : String) : Except String α → Except String α
  | .error e => .error (context ++ ": " ++ e)
  | .ok a => .ok a

/-- The response handling of `(*Client).SearchProfiles` after the HTTP POST
succeeded and the body unmarshalled to `data`: if the response holds zero
items the method returns the error "no profiles found"; otherwise each item
is mapped to a SearchProfile. The deferred `wrapErr` prefixes errors with
"search profiles". -/
def searchProfilesOfResponse (data : List SearchResponseItem) :
    Except String (List SearchProfile) :=
  wrapExcept "search profiles"
    (if data.isEmpty then .error "no profiles found"
     else .ok (data.map toSearchProfile))

/-- The truncation step of the pool pipeline's search task (main.go:230-232;
identically, the older revision truncates to its numProfiles argument): Go's
`profiles = profiles[:q.Limit]` runs only when `len(profiles) > q.Limit`.
A negative limit would make the slice expression panic, modelled as `none`.
Each retained candidate then gets exactly one download task scheduled for it
(the loop at main.go:234-268), so the retained list is the per-query download
task list. -/
def truncateProfiles (profiles : List SearchProfile) (limit : Int) :
    Option (List SearchProfile) :=
  if (profiles.length : Int) > limit then
    if limit < 0 then none
    else some (profiles.take limit.toNat)
  else some profiles

/-! ## Client construction and run's error policy
(the client file and main.go:32-156) -/

/-- The environment variables `ClientFromEnv` reads; an unset variable is
the empty string (Go's `os.Getenv`). -/
structure Env where
  ddSite : String
  ddApiKey : String
  ddAppKey : String
deriving DecidableEq

/-- The API client's configuration fields. The concurrency channel is
modelled separately as the semaphore below. -/
structure Client where
  site : String
  apiKey : String
  appKey : String
deriving DecidableEq

/-- `ClientFromEnv`: defaults the site to "datadoghq.com", then fails if
DD_API_KEY or DD_APP_KEY is unset. -/
def ClientFromEnv (env : Env) : Except String Client :=
  if env.ddApiKey = "" then .error "DD_API_KEY is not set"
  else if env.ddAppKey = "" then .error "DD_APP_KEY is not set"
  else .ok { site := if env.ddSite = "" then "datadoghq.com" else env.ddSite,
             apiKey := env.ddApiKey, appKey := env.ddAppKey }

/-- The error value `run` ends with: a base message, possibly wrapped in
`loggedError` and then in `handledError` by the deferred handler
(main.go:114-124). -/
inductive RunErr where
  | base (msg : String)
  | logged (e : RunErr)
  | handled (e : RunErr)
deriving DecidableEq

/-- Whether `errors.As(err, &handledError{})` holds in `main` (main.go:33):
`handledError` and `loggedError` define no Unwrap method, so only the
outermost wrapper is examined. -/
def RunErr.isHandled : RunErr → Bool
  | .handled _ => true
  | _ => false

/-- The deferred error handler of `run` (main.go:114-124): a nil error
passes through; otherwise the error is logged and wrapped in `loggedError`,
and when the -fail flag is NOT set it is further wrapped in `handledError`.
This wrapping applies to every error `run` returns, configuration errors
included. -/
def wrapRunError (failF : Bool) : Option String → Option RunErr
  | none => none
  | some msg =>
    some (if failF then RunErr.logged (.base msg)
          else RunErr.handled (RunErr.logged (.base msg)))

/-- `run` from client construction onward (main.go:126-155): a
`ClientFromEnv` failure returns "clientFromEnv: " ++ error; otherwise the
rest of run (pipeline, write) proceeds with the client, abstracted as
`afterClient`. The deferred handler wraps whatever error results. -/
def runFromClient (env : Env) (failF : Bool) (afterClient : Client → Option String) :
    Option RunErr :=
  wrapRunError failF
    (match ClientFromEnv env with
     | .error e => some ("clientFromEnv: " ++ e)
     | .ok c => afterClient c)

/-- The process exit code `main` produces (main.go:32-39): 0 on success, 0
when the error is handled, 1 otherwise. -/
def mainExitCode : Option RunErr → Nat
  | none => 0
  | some e => if e.isHandled then 0 else 1

/-! ## The concurrency semaphore (client file: maxConcurrency,
limitConcurrency) -/

/-- The ceiling on concurrent API requests (the client file's
`maxConcurrency`, the capacity of the buffered concurrency channel). -/
def maxConcurrency : Nat := 5

/-- A semaphore event: `limitConcurrency` sends into the channel on entry to
each catalog call (acquire) and the returned closure receives from it on
exit (release). -/
inductive SemEvent where
  | acquire
  | release
deriving DecidableEq

/-- One transition of the channel-backed semaphore, whose state is the
number of tokens held (= outstanding catalog calls, since every catalog
call holds exactly one token from entry to exit). A send blocks while the
buffered channel is full (`n = maxConcurrency`), a receive blocks while it
is empty; blocked transitions are not enabled (`none`). -/
def semStep (n : Nat) : SemEvent → Option Nat
  | .acquire => if n < maxConcurrency then some (n + 1) else none
  | .release => if 0 < n then some (n - 1) else none

/-- Run a trace of semaphore events from a token count. `none` when the
trace requires a transition that is not enabled. -/
def semRun (n : Nat) : List SemEvent → Option Nat
  | [] => some n
  | e :: rest =>
    match semStep n e with
    | some n2 => semRun n2 rest
    | none => none

/-- A second profile, schema-incompatible with `labeledCPUProfile`, used in
concrete instantiations below. -/
def allocProfile : Profile :=
  { sampleType := [{ type := "alloc", unit := "bytes" }],
    sample := [{ location := [2], value := [8], label := [], numLabel := [] }],
    timeNanos := 0, durationNanos := 3 }

/-- Three concrete search results, used to instantiate the truncation
theorem. -/
def searchResultsDemo : List SearchProfile :=
  [{ service := "s", cpuCores := 3, profileID := "p1", eventID := "e1",
     timestamp := 0, duration := 1 },
   { service := "s", cpuCores := 2, profileID := "p2", eventID := "e2",
     timestamp := 0, duration := 1 },
   { service := "s", cpuCores := 1, profileID := "p3", eventID := "e3",
     timestamp := 0, duration := 1 }]

/-- A concrete merge sequence of two compatible profiles. -/
def mergePairsDemo : List (String × Profile) :=
  [("p1", labeledCPUProfile), ("p2", labeledCPUProfile)]

/-- One concrete decoded item of a search response. -/
def responseItemDemo : SearchResponseItem :=
  { id := "e1", attrID := "p1", service := "s", durationNanos := 1,
    timestamp := 0, coreCPUCores := 2 }

/-! ## Supporting lemmas -/

/-- Every Merge call appends the source id, in both the adopt, the
successful-union and the failed-union branch. -/
lemma merge_ids (p : MergedProfile) (id : String) (prof : Profile) :
    (MergedProfile.Merge p id prof).1.profileIDs = p.profileIDs ++ [id] := by
  cases hp : p.profile with
  | none => simp [MergedProfile.Merge, hp]
  | some cur =>
    cases hm : profileMerge cur (stripLabels prof) with
    | ok m => simp [MergedProfile.Merge, hp, hm]
    | error e => simp [MergedProfile.Merge, hp, hm]

/-- Along an error-free Merge sequence, the contribution list grows by
exactly the ids of the sequence, in order. -/
lemma mergeAll_ids (pairs : List (String × Profile)) :
    ∀ (p result : MergedProfile), mergeAll p pairs = (result, none) →
      result.profileIDs = p.profileIDs ++ pairs.map Prod.fst := by
  induction pairs with
  | nil =>
    intro p result h
    simp only [mergeAll, Prod.mk.injEq] at h
    simp [← h.1]
  | cons pr rest ih =>
    intro p result h
    obtain ⟨id, prof⟩ := pr
    simp only [mergeAll] at h
    cases hm : MergedProfile.Merge p id prof with
    | mk p2 e =>
      rw [hm] at h
      cases e with
      | none =>
        have hids : p2.profileIDs = p.profileIDs ++ [id] := by
          have := merge_ids p id prof
          rw [hm] at this
          exact this
        have := ih p2 result h
        rw [this, hids]
        simp
      | some e0 => simp at h

/-- Stripping leaves every sample with empty string labels. -/
lemma stripLabels_label_free (prof : Profile) :
    ∀ t ∈ (stripLabels prof).sample, t.label = [] := by
  intro t ht
  simp only [stripLabels, List.mem_map] at ht
  obtain ⟨s, _, hs⟩ := ht
  rw [← hs]

/-- insertSample preserves empty string labels. -/
lemma insertSample_label_free (acc : List Sample) (s : Sample)
    (hacc : ∀ t ∈ acc, t.label = []) (hs : s.label = []) :
    ∀ t ∈ insertSample acc s, t.label = [] := by
  induction acc with
  | nil =>
    intro t ht
    simp only [insertSample, List.mem_singleton] at ht
    rw [ht]
    exact hs
  | cons a rest ih =>
    intro t ht
    by_cases hk : sampleKey a = sampleKey s
    · simp only [insertSample, if_pos hk] at ht
      rcases List.mem_cons.mp ht with h1 | h2
      · rw [h1]
        exact hacc a (List.mem_cons_self a rest)
      · exact hacc t (List.mem_cons_of_mem a h2)
    · simp only [insertSample, if_neg hk] at ht
      rcases List.mem_cons.mp ht with h1 | h2
      · rw [h1]
        exact hacc a (List.mem_cons_self a rest)
      · exact ih (fun u hu => hacc u (List.mem_cons_of_mem a hu)) t h2

/-- Folding label-free samples into a label-free accumulation stays
label-free. -/
lemma foldl_insertSample_label_free (bs : List Sample) :
    ∀ (acc : List Sample), (∀ t ∈ acc, t.label = []) → (∀ s ∈ bs, s.label = []) →
      ∀ t ∈ bs.foldl insertSample acc, t.label = [] := by
  induction bs with
  | nil =>
    intro acc hacc _ t ht
    exact hacc t ht
  | cons b rest ih =>
    intro acc hacc hbs t ht
    simp only [List.foldl_cons] at ht
    exact ih (insertSample acc b)
      (insertSample_label_free acc b hacc (hbs b (List.mem_cons_self b rest)))
      (fun s hsm => hbs s (List.mem_cons_of_mem b hsm)) t ht

/-- The codec's sample-wise union of two label-free profiles is label-free. -/
lemma profileMerge_label_free (a b m : Profile) (h : profileMerge a b = .ok m)
    (ha : ∀ t ∈ a.sample, t.label = []) (hb : ∀ t ∈ b.sample, t.label = []) :
    ∀ t ∈ m.sample, t.label = [] := by
  unfold profileMerge at h
  by_cases hst : a.sampleType = b.sampleType
  · rw [if_pos hst] at h
    injection h with h2
    rw [← h2]
    exact foldl_insertSample_label_free b.sample a.sample ha hb
  · rw [if_neg hst] at h
    cases h

/-- One Merge call preserves the string-label-free invariant of the held
profile. -/
lemma merge_label_free (p : MergedProfile) (id : String) (prof : Profile)
    (hp : ∀ q, p.profile = some q → ∀ t ∈ q.sample, t.label = []) :
    ∀ q, (MergedProfile.Merge p id prof).1.profile = some q →
      ∀ t ∈ q.sample, t.label = [] := by
  intro q hq
  cases hpp : p.profile with
  | none =>
    simp only [MergedProfile.Merge, hpp, Option.some.injEq] at hq
    rw [← hq]
    exact stripLabels_label_free prof
  | some cur =>
    cases hm : profileMerge cur (stripLabels prof) with
    | ok m =>
      simp only [MergedProfile.Merge, hpp, hm, Option.some.injEq] at hq
      rw [← hq]
      exact profileMerge_label_free cur (stripLabels prof) m hm (hp cur hpp)
        (stripLabels_label_free prof)
    | error e =>
      simp [MergedProfile.Merge, hpp, hm] at hq

/-- Any Merge sequence preserves the string-label-free invariant. -/
lemma mergeAll_label_free (pairs : List (String × Profile)) :
    ∀ (p : MergedProfile), (∀ q, p.profile = some q → ∀ t ∈ q.sample, t.label = []) →
      ∀ q, (mergeAll p pairs).1.profile = some q → ∀ t ∈ q.sample, t.label = [] := by
  induction pairs with
  | nil =>
    intro p hp q hq
    exact hp q hq
  | cons pr rest ih =>
    intro p hp q hq
    obtain ⟨id, prof⟩ := pr
    simp only [mergeAll] at hq
    cases hm : MergedProfile.Merge p id prof with
    | mk p2 e =>
      rw [hm] at hq
      have hp2 : ∀ r, p2.profile = some r → ∀ t ∈ r.sample, t.label = [] := by
        intro r hr
        have := merge_label_free p id prof hp r
        rw [hm] at this
        exact this hr
      cases e with
      | none => exact ih p2 hp2 q hq
      | some e0 => exact hp2 q hq

/-- The semaphore invariant: from a state within the bound, any enabled
trace ends within the bound. -/
lemma semRun_bound (trace : List SemEvent) :
    ∀ (m n : Nat), m ≤ maxConcurrency → semRun m trace = some n →
      n ≤ maxConcurrency := by
  induction trace with
  | nil =>
    intro m n hm h
    simp only [semRun, Option.some.injEq] at h
    omega
  | cons e rest ih =>
    intro m n hm h
    cases e with
    | acquire =>
      by_cases hlt : m < maxConcurrency
      · simp only [semRun, semStep, if_pos hlt] at h
        exact ih (m + 1) n (by omega) h
      · simp [semRun, semStep, if_neg hlt] at h
    | release =>
      by_cases hpos : 0 < m
      · simp only [semRun, semStep, if_pos hpos] at h
        exact ih (m - 1) n (by omega) h
      · simp [semRun, semStep, if_neg hpos] at h

/-! ## Claim theorems -/

/-- Claim C1 (code_bug evidence): when `client.SearchAndDownloadProfiles`
fails, `searchDownloadMergePGOEndpoint` (main.go:284-290) executes
`return nil, nil`: the caller receives a nil MergedProfile together with a
nil error, so the first error encountered is NOT returned. -/
theorem pgoEndpoint_swallows_search_error :
    searchDownloadMergePGOEndpoint
        (Except.error "search and download profiles: network error")
      = (none, none) := rfl

/-- Claim C2 (counterexample): with DD_API_KEY unset and the -fail flag not
set, the configuration error from ClientFromEnv is wrapped in handledError
by run's deferred handler and the process exits 0 — not the non-zero exit
the claim states. -/
theorem config_error_exit_zero_without_fail :
    mainExitCode (runFromClient { ddSite := "", ddApiKey := "", ddAppKey := "" }
        false fun _ => none) = 0 := rfl

/-- Claim C2 (amended): a missing-credential configuration error always
makes run return an error (which is logged), but the exit code is non-zero
only when the -fail flag is set; without -fail the error is downgraded to a
handled warning and the process exits 0, exactly as for acquisition
errors. -/
theorem config_error_logged_exit_depends_on_fail (env : Env) (failF : Bool)
    (afterClient : Client → Option String)
    (h : env.ddApiKey = "" ∨ env.ddAppKey = "") :
    (runFromClient env failF afterClient).isSome = true
    ∧ mainExitCode (runFromClient env failF afterClient)
        = (if failF then 1 else 0) := by
  have herr : ∃ msg, runFromClient env failF afterClient
      = wrapRunError failF (some ("clientFromEnv: " ++ msg)) := by
    rcases h with h | h
    · exact ⟨"DD_API_KEY is not set", by simp [runFromClient, ClientFromEnv, h]⟩
    · by_cases h2 : env.ddApiKey = ""
      · exact ⟨"DD_API_KEY is not set", by simp [runFromClient, ClientFromEnv, h2]⟩
      · exact ⟨"DD_APP_KEY is not set", by simp [runFromClient, ClientFromEnv, h2, h]⟩
  obtain ⟨msg, hm⟩ := herr
  rw [hm]
  cases failF <;> simp [wrapRunError, mainExitCode, RunErr.isHandled]

/-- Witness for the amended C2 theorem at a concrete input: DD_API_KEY
unset and -fail set gives a returned error and exit code 1. -/
theorem config_error_logged_exit_depends_on_fail_witness :
    (runFromClient { ddSite := "", ddApiKey := "", ddAppKey := "k" } true
        fun _ => none).isSome = true
    ∧ mainExitCode (runFromClient { ddSite := "", ddApiKey := "", ddAppKey := "k" }
        true fun _ => none) = (if true then 1 else 0) :=
  config_error_logged_exit_depends_on_fail
    { ddSite := "", ddApiKey := "", ddAppKey := "k" } true (fun _ => none)
    (Or.inl rfl)

/-- Claim C3 (code_bug evidence): a successfully downloaded archive with
zero entries (every query returned zero candidates) makes
`(*ProfilesDownload).MergedProfile` return success with an accumulator that
holds NO profile; that state is not valid serializer input
(`(*MergedProfile).Write` would dereference a nil profile), yet no error is
surfaced. -/
theorem empty_archive_yields_success_without_profile :
    ProfilesDownload.mergedProfile (Except.ok [])
        = Except.ok { profile := none, profileIDs := [] }
    ∧ MergedProfile.writeOk { profile := none, profileIDs := [] } = false :=
  ⟨rfl, rfl⟩

/-- Claim C4 (counterexample): a search response with zero items does NOT
produce an empty candidate list without error — `(*Client).SearchProfiles`
returns the error "no profiles found" (wrapped by wrapErr). -/
theorem search_zero_results_is_error :
    searchProfilesOfResponse [] = Except.error "search profiles: no profiles found" := rfl

/-- Claim C4 (amended): a query whose search response holds zero items makes
SearchProfiles return the error "search profiles: no profiles found" (fatal
to the pool pipeline, like any search error) rather than an empty list;
responses with at least one item are returned without error, one candidate
per item. -/
theorem search_zero_results_amended :
    (searchProfilesOfResponse [] = Except.error "search profiles: no profiles found")
    ∧ ∀ data : List SearchResponseItem, data ≠ [] →
        searchProfilesOfResponse data = Except.ok (data.map toSearchProfile) := by
  refine ⟨rfl, ?_⟩
  intro data h
  cases data with
  | nil => exact absurd rfl h
  | cons a as => rfl

/-- Witness for the amended C4 theorem at a concrete input: a one-item
response parses to one candidate without error. -/
theorem search_zero_results_amended_witness :
    searchProfilesOfResponse [responseItemDemo]
      = Except.ok ([responseItemDemo].map toSearchProfile) :=
  search_zero_results_amended.2 [responseItemDemo] (by simp)

/-- Claim C5 (confirmed): for a non-negative result limit L and a search
result of size R, the truncation step keeps exactly the first min(L, R)
candidates of the catalog-ordered list (a prefix, `List.take`), and one
download task is scheduled per kept candidate, so min(L, R) download tasks
are scheduled. -/
theorem truncation_keeps_min_limit_results (profiles : List SearchProfile)
    (limit : Int) (h : 0 ≤ limit) :
    truncateProfiles profiles limit
        = some (profiles.take (min limit.toNat profiles.length))
    ∧ (profiles.take (min limit.toNat profiles.length)).length
        = min limit.toNat profiles.length := by
  constructor
  · unfold truncateProfiles
    by_cases hgt : (profiles.length : Int) > limit
    · rw [if_pos hgt, if_neg (by omega)]
      have hmin : min limit.toNat profiles.length = limit.toNat := by omega
      rw [hmin]
    · rw [if_neg hgt]
      have hmin : min limit.toNat profiles.length = profiles.length := by omega
      rw [hmin, List.take_length]
  · simp [List.length_take]

/-- Witness for the C5 theorem at a concrete input: three results, limit 2,
keeps the first two. -/
theorem truncation_keeps_min_limit_results_witness :
    truncateProfiles searchResultsDemo 2
        = some (searchResultsDemo.take (min (Int.toNat 2) searchResultsDemo.length))
    ∧ (searchResultsDemo.take (min (Int.toNat 2) searchResultsDemo.length)).length
        = min (Int.toNat 2) searchResultsDemo.length :=
  truncation_keeps_min_limit_results searchResultsDemo 2 (by decide)

/-- Claim C6 (confirmed): the first Merge call adopts the incoming profile
(label-stripped in place, so the adopted object is the given profile) as the
current state; a subsequent call whose codec union succeeds replaces the
state with that union; every call appends the source id to the contribution
list; and an error-free sequence of N merges from the empty accumulator
leaves exactly the N source ids, in order. -/
theorem merge_adopts_then_unions :
    (∀ (ids : List String) (id : String) (prof : Profile),
      MergedProfile.Merge { profile := none, profileIDs := ids } id prof
        = ({ profile := some (stripLabels prof), profileIDs := ids ++ [id] }, none))
    ∧ (∀ (ids : List String) (id : String) (cur prof m : Profile),
      profileMerge cur (stripLabels prof) = .ok m →
      MergedProfile.Merge { profile := some cur, profileIDs := ids } id prof
        = ({ profile := some m, profileIDs := ids ++ [id] }, none))
    ∧ (∀ (p : MergedProfile) (id : String) (prof : Profile),
      (MergedProfile.Merge p id prof).1.profileIDs = p.profileIDs ++ [id])
    ∧ (∀ (pairs : List (String × Profile)) (result : MergedProfile),
      mergeAll { profile := none, profileIDs := [] } pairs = (result, none) →
      result.profileIDs = pairs.map Prod.fst
      ∧ result.profileIDs.length = pairs.length) := by
  refine ⟨?_, ?_, merge_ids, ?_⟩
  · intro ids id prof
    simp [MergedProfile.Merge]
  · intro ids id cur prof m hm
    simp [MergedProfile.Merge, hm]
  · intro pairs result h
    have hids := mergeAll_ids pairs { profile := none, profileIDs := [] } result h
    simp only [List.nil_append] at hids
    exact ⟨hids, by rw [hids, List.length_map]⟩

/-- Witness for the C6 theorem at a concrete input: merging two compatible
profiles records exactly their two ids, in order. -/
theorem merge_adopts_then_unions_witness :
    (mergeAll { profile := none, profileIDs := [] } mergePairsDemo).1.profileIDs
        = mergePairsDemo.map Prod.fst
    ∧ (mergeAll { profile := none, profileIDs := [] } mergePairsDemo).1.profileIDs.length
        = mergePairsDemo.length :=
  merge_adopts_then_unions.2.2.2 mergePairsDemo
    (mergeAll { profile := none, profileIDs := [] } mergePairsDemo).1 rfl

/-- Claim C7 (counterexample): Merge only clears `Label` (string labels);
`NumLabel` is untouched. Merging a profile whose sample carries the numeric
label ("span", [42]) leaves that numeric label in the finalized state, so
the state is not free of numeric labels. -/
theorem merge_keeps_numeric_labels :
    ((MergedProfile.Merge { profile := none, profileIDs := [] }
        "p1" labeledCPUProfile).1.profile.map
      fun prof => prof.sample.map Sample.numLabel)
    = some [[("span", [42])]] := rfl

/-- Claim C7 (amended): for any sequence of profiles merged through the
Accumulator, no sample of the held state carries per-sample STRING labels
(Label), even if the inputs had them; numeric labels (NumLabel) are
preserved, not stripped. -/
theorem merged_state_string_label_free :
    ∀ (pairs : List (String × Profile)) (prof : Profile),
      (mergeAll { profile := none, profileIDs := [] } pairs).1.profile = some prof →
      prof.stringLabelFree = true := by
  intro pairs prof h
  have hfree := mergeAll_label_free pairs { profile := none, profileIDs := [] }
    (fun q hq => nomatch hq) prof h
  unfold Profile.stringLabelFree
  rw [List.all_eq_true]
  intro s hs
  exact decide_eq_true (hfree s hs)

/-- Witness for the amended C7 theorem at a concrete input: after merging a
labeled profile, the held state has no string labels. -/
theorem merged_state_string_label_free_witness :
    Profile.stringLabelFree (stripLabels labeledCPUProfile) = true :=
  merged_state_string_label_free [("p1", labeledCPUProfile)]
    (stripLabels labeledCPUProfile) rfl

/-- Claim C8 (counterexample): after one successful merge, merging a
schema-incompatible profile makes the codec error, and the Go
multi-assignment stores the codec's nil result: the accumulated profile is
gone (not valid serializer input) while the failed profile's id was still
appended — the state IS observed invalid after a failed merge. -/
theorem failed_merge_clears_state :
    (((MergedProfile.Merge { profile := none, profileIDs := [] }
        "a" labeledCPUProfile).1.Merge "b" allocProfile).2).isSome = true
    ∧ ((MergedProfile.Merge { profile := none, profileIDs := [] }
        "a" labeledCPUProfile).1.Merge "b" allocProfile).1.profile = none
    ∧ MergedProfile.writeOk ((MergedProfile.Merge { profile := none, profileIDs := [] }
        "a" labeledCPUProfile).1.Merge "b" allocProfile).1 = false
    ∧ ((MergedProfile.Merge { profile := none, profileIDs := [] }
        "a" labeledCPUProfile).1.Merge "b" allocProfile).1.profileIDs = ["a", "b"] :=
  ⟨rfl, rfl, rfl, rfl⟩

/-- Claim C8 (amended): a Merge call that reports no error always leaves the
state holding a profile, i.e. valid serializer input; a Merge call in which
the codec reports an error (incompatible sample-value schemas) leaves the
accumulated profile cleared to nil — that failure is fatal to the pipeline
(the loop in MergedProfile-of-download aborts with the error), so the
cleared state is never serialized. -/
theorem merge_success_leaves_serializable (p : MergedProfile) (id : String)
    (prof : Profile) :
    ((MergedProfile.Merge p id prof).2 = none →
      MergedProfile.writeOk (MergedProfile.Merge p id prof).1 = true)
    ∧ ((MergedProfile.Merge p id prof).2.isSome = true →
      (MergedProfile.Merge p id prof).1.profile = none) := by
  cases hp : p.profile with
  | none =>
    constructor
    · intro _
      simp [MergedProfile.Merge, hp, MergedProfile.writeOk]
    · intro hcontra
      simp [MergedProfile.Merge, hp] at hcontra
  | some cur =>
    cases hm : profileMerge cur (stripLabels prof) with
    | ok m =>
      constructor
      · intro _
        simp [MergedProfile.Merge, hp, hm, MergedProfile.writeOk]
      · intro hcontra
        simp [MergedProfile.Merge, hp, hm] at hcontra
    | error e =>
      constructor
      · intro hcontra
        simp [MergedProfile.Merge, hp, hm] at hcontra
      · intro _
        simp [MergedProfile.Merge, hp, hm]

/-- Witness for the amended C8 theorem at a concrete input: a first merge
reports no error and leaves serializable state. -/
theorem merge_success_leaves_serializable_witness :
    MergedProfile.writeOk (MergedProfile.Merge { profile := none, profileIDs := [] }
        "a" labeledCPUProfile).1 = true :=
  (merge_success_leaves_serializable { profile := none, profileIDs := [] }
    "a" labeledCPUProfile).1 rfl

/-- Claim C9 (confirmed): the configured ceiling is 5, and for every
admissible trace of semaphore events (each catalog call acquires one token
at entry and releases it at exit, so tokens held = outstanding search plus
download calls), the token count reachable from 0 never exceeds
maxConcurrency — in particular every intermediate count, being reachable by
a prefix trace, is bounded, regardless of how many tasks are scheduled. -/
theorem concurrency_never_exceeds_ceiling :
    maxConcurrency = 5
    ∧ ∀ (trace : List SemEvent) (n : Nat), semRun 0 trace = some n →
        n ≤ maxConcurrency := by
  refine ⟨rfl, ?_⟩
  intro trace n h
  exact semRun_bound trace 0 n (by omega) h

/-- Witness for the C9 theorem at a concrete input: three nested catalog
calls are admissible and within the ceiling. -/
theorem concurrency_never_exceeds_ceiling_witness :
    (3 : Nat) ≤ maxConcurrency :=
  concurrency_never_exceeds_ceiling.2
    [SemEvent.acquire, SemEvent.acquire, SemEvent.acquire] 3 rfl

/-- Claim C10 (confirmed): usePGOEndpoint is true and SearchDownloadMerge
dispatches to the pgo-endpoint implementation at the first call; the
alternative branch calls SearchDownloadMerge itself, so with the flag false
the function never returns for any recursion depth, and no value of the
flag ever reaches the lowercase pool pipeline. -/
theorem dispatch_always_pgo_endpoint :
    usePGOEndpoint = true
    ∧ (∀ fuel : Nat, 0 < fuel →
        searchDownloadMergeDispatch usePGOEndpoint fuel = some PipelineImpl.pgoEndpoint)
    ∧ (∀ fuel : Nat, searchDownloadMergeDispatch false fuel = none)
    ∧ (∀ (flag : Bool) (fuel : Nat),
        searchDownloadMergeDispatch flag fuel ≠ some PipelineImpl.poolPipeline) := by
  refine ⟨rfl, ?_, ?_, ?_⟩
  · intro fuel hf
    cases fuel with
    | zero => omega
    | succ k => simp [searchDownloadMergeDispatch, usePGOEndpoint]
  · intro fuel
    induction fuel with
    | zero => rfl
    | succ k ih => simp [searchDownloadMergeDispatch, ih]
  · intro flag fuel
    induction fuel with
    | zero => simp [searchDownloadMergeDispatch]
    | succ k ih =>
      cases flag with
      | true => simp [searchDownloadMergeDispatch]
      | false => simpa [searchDownloadMergeDispatch] using ih

/-- Witness for the C10 theorem at a concrete input: one step of fuel
suffices to reach the pgo-endpoint implementation. -/
theorem dispatch_always_pgo_endpoint_witness :
    searchDownloadMergeDispatch usePGOEndpoint 1 = some PipelineImpl.pgoEndpoint :=
  dispatch_always_pgo_endpoint.2.1 1 (by decide)
